import Mathlib

/-!
Verification of the ggif conversion tool (cmd/ggif/main.go and the
upload-variant source file) against its specification.

The Go program is a sequential orchestration script: it scans a source
directory for the newest video file (`findNewestFile`), optionally watches
the directory for creation events (`watch`), and runs a pipeline
(`process`) that extracts frames with ffmpeg, encodes a gif with gifski,
and uploads the artifact with a vendor CLI (`uploadGCP` / `uploadS3`),
printing the public URL and copying it to the clipboard.

The shallow embedding below models:
  - a directory listing as a list of entries, each carrying the result of
    content sniffing (`filetype.IsVideo` over the bytes read by
    `ioutil.ReadFile`) and of `os.Stat` (`none` models a stat error,
    `some t` models `ModTime().Unix()`);
  - the external world as an explicit record of spawned commands, stdout,
    clipboard contents, existing directories and the log;
  - each external subprocess outcome (`CombinedOutput`) as an input
    parameter, since the program only inspects it for logging.
-/

namespace Ggif

/-- One entry of a directory listing, as observed by `findNewestFile`:
`name` is the base name, `isVideo` is the result of `filetype.IsVideo` on
the bytes read from the file, and `modTime` is `some` of
`ModTime().Unix()` when `os.Stat` succeeds and `none` when it fails. -/
structure DirEntry where
  name : String
  isVideo : Bool
  modTime : Option Int
deriving DecidableEq, Repr

/-- Model of Go `path/filepath.Join` on two elements that are already
clean: empty elements are dropped, the rest are joined with a slash.
(Go additionally runs `Clean` on the joined string, which is the identity
on clean inputs; the key behaviour `Join(dir, "") = dir` and
`Join("", "") = ""` is preserved.) -/
def joinGo (a b : String) : String :=
  if a = "" then b
  else if b = "" then a
  else a ++ "/" ++ b

/-- The loop body of `findNewestFile` (main.go lines 44-60): iterate over
the listing, skip entries that do not sniff as video, skip entries whose
stat failed (logged, not fatal), and keep the name of the entry whose
modification time strictly exceeds the running maximum `newestTime`
(which starts at 0). -/
def findNewestLoop : List DirEntry → String → Int → String
  | [], newestFile, _ => newestFile
  | f :: rest, newestFile, newestTime =>
    if f.isVideo then
      match f.modTime with
      | none => findNewestLoop rest newestFile newestTime
      | some currTime =>
        if newestTime < currTime then findNewestLoop rest f.name currTime
        else findNewestLoop rest newestFile newestTime
    else findNewestLoop rest newestFile newestTime

/-- `findNewestFile(dir)` (main.go lines 40-62): run the scan loop over
the listing returned by `ioutil.ReadDir` (passed here as `files`), then
return `filepath.Join(dir, newestFile)` — note the join is applied even
when no entry was selected and `newestFile` is still `""`. -/
def findNewestFile (dir : String) (files : List DirEntry) : String :=
  joinGo dir (findNewestLoop files "" 0)

/-- Invariant of the scan loop: either no entry beats the running maximum
`best` and the accumulator is returned unchanged, or the result is the
name of the first video entry attaining the maximal modification time
strictly above `best`. -/
theorem findNewestLoop_spec (files : List DirEntry) (acc : String) (best : Int) :
    (findNewestLoop files acc best = acc ∧
      ∀ e ∈ files, e.isVideo → ∀ t : Int, e.modTime = some t → t ≤ best) ∨
    (∃ pre e post, ∃ t : Int, files = pre ++ e :: post ∧ e.isVideo ∧
      e.modTime = some t ∧ best < t ∧
      findNewestLoop files acc best = e.name ∧
      (∀ e' ∈ pre, e'.isVideo → ∀ t' : Int, e'.modTime = some t' → t' < t) ∧
      (∀ e' ∈ post, e'.isVideo → ∀ t' : Int, e'.modTime = some t' → t' ≤ t)) := by
  induction files generalizing acc best with
  | nil =>
    left
    exact ⟨rfl, by simp⟩
  | cons f rest ih =>
    by_cases hv : f.isVideo
    · cases hmt : f.modTime with
      | none =>
        have hstep : findNewestLoop (f :: rest) acc best = findNewestLoop rest acc best := by
          simp [findNewestLoop, hv, hmt]
        rcases ih acc best with ⟨hr, hall⟩ | ⟨pre, e, post, t, happ, hev, het, hbt, hr, hpre, hpost⟩
        · left
          refine ⟨hstep.trans hr, ?_⟩
          intro e he hve t hte
          rcases List.mem_cons.mp he with rfl | he'
          · rw [hmt] at hte; cases hte
          · exact hall e he' hve t hte
        · right
          refine ⟨f :: pre, e, post, t, by rw [happ]; rfl, hev, het, hbt, hstep.trans hr, ?_, hpost⟩
          intro e' he' hve' t' hte'
          rcases List.mem_cons.mp he' with rfl | hmem
          · rw [hmt] at hte'; cases hte'
          · exact hpre e' hmem hve' t' hte'
      | some t0 =>
        by_cases hlt : best < t0
        · have hstep : findNewestLoop (f :: rest) acc best = findNewestLoop rest f.name t0 := by
            simp [findNewestLoop, hv, hmt, hlt]
          rcases ih f.name t0 with ⟨hr, hall⟩ | ⟨pre, e, post, t, happ, hev, het, hbt, hr, hpre, hpost⟩
          · right
            refine ⟨[], f, rest, t0, by simp, hv, hmt, hlt, hstep.trans hr, by simp, hall⟩
          · right
            refine ⟨f :: pre, e, post, t, by rw [happ]; rfl, hev, het,
              lt_trans hlt hbt, hstep.trans hr, ?_, hpost⟩
            intro e' he' hve' t' hte'
            rcases List.mem_cons.mp he' with rfl | hmem
            · rw [hmt] at hte'
              injection hte' with h
              omega
            · exact hpre e' hmem hve' t' hte'
        · have hstep : findNewestLoop (f :: rest) acc best = findNewestLoop rest acc best := by
            simp [findNewestLoop, hv, hmt, hlt]
          rcases ih acc best with ⟨hr, hall⟩ | ⟨pre, e, post, t, happ, hev, het, hbt, hr, hpre, hpost⟩
          · left
            refine ⟨hstep.trans hr, ?_⟩
            intro e he hve t hte
            rcases List.mem_cons.mp he with rfl | he'
            · rw [hmt] at hte
              injection hte with h
              omega
            · exact hall e he' hve t hte
          · right
            refine ⟨f :: pre, e, post, t, by rw [happ]; rfl, hev, het, hbt, hstep.trans hr, ?_, hpost⟩
            intro e' he' hve' t' hte'
            rcases List.mem_cons.mp he' with rfl | hmem
            · rw [hmt] at hte'
              injection hte' with h
              omega
            · exact hpre e' hmem hve' t' hte'
    · have hstep : findNewestLoop (f :: rest) acc best = findNewestLoop rest acc best := by
        simp [findNewestLoop, hv]
      rcases ih acc best with ⟨hr, hall⟩ | ⟨pre, e, post, t, happ, hev, het, hbt, hr, hpre, hpost⟩
      · left
        refine ⟨hstep.trans hr, ?_⟩
        intro e he hve t hte
        rcases List.mem_cons.mp he with rfl | he'
        · exact absurd hve hv
        · exact hall e he' hve t hte
      · right
        refine ⟨f :: pre, e, post, t, by rw [happ]; rfl, hev, het, hbt, hstep.trans hr, ?_, hpost⟩
        intro e' he' hve' t' hte'
        rcases List.mem_cons.mp he' with rfl | hmem
        · exact absurd hve' hv
        · exact hpre e' hmem hve' t' hte'

/-- C1: the claim says `findNewestFile` returns the empty string for a
directory with zero video-classified entries. It does not: since the final
statement is `filepath.Join(dir, newestFile)` and `Join(dir, "") = dir`,
the function returns the directory path itself (here `"/videos"`), which
is non-empty, so the caller's `videoFile == ""` fail-fast guard can never
fire. Evaluated at the failing input: an empty (or unreadable) directory
listing, and a listing with only non-video entries. -/
theorem findNewestFile_no_video_returns_dir :
    findNewestFile "/videos" [] = "/videos" ∧
    findNewestFile "/videos" [⟨"notes.txt", false, some 100⟩] = "/videos" ∧
    "/videos" ≠ "" := by
  refine ⟨rfl, rfl, by decide⟩

/-- C2 counterexample: a directory whose only entry is video-classified
with modification time exactly the Unix epoch (`Unix() = 0`). The claim
says the returned path is that of a video-classified entry of maximal
modification time, but the loop's running maximum starts at 0 with a
strict comparison, so the entry is never selected and the function
returns the directory itself, which is no entry's path. -/
theorem findNewest_epoch_video_not_returned :
    ¬ ∃ e ∈ [(⟨"a.mp4", true, some 0⟩ : DirEntry)], e.isVideo ∧
        findNewestFile "/v" [⟨"a.mp4", true, some 0⟩] = joinGo "/v" e.name := by
  decide

/-- C2 (amended): for every directory listing containing at least one
video-classified entry whose stat succeeded with a modification time
strictly after the Unix epoch, `findNewestFile` returns the path under
`dir` of a video-classified entry whose modification time is maximal
among all video-classified entries; non-video entries are never
returned. -/
theorem findNewest_returns_max_video (dir : String) (files : List DirEntry)
    (h : ∃ e ∈ files, e.isVideo ∧ ∃ t : Int, e.modTime = some t ∧ 0 < t) :
    ∃ e ∈ files, e.isVideo ∧ ∃ t : Int, e.modTime = some t ∧
      (∀ e' ∈ files, e'.isVideo → ∀ t' : Int, e'.modTime = some t' → t' ≤ t) ∧
      findNewestFile dir files = joinGo dir e.name := by
  obtain ⟨e0, he0, hv0, t0, ht0, hpos0⟩ := h
  rcases findNewestLoop_spec files "" 0 with ⟨_, hall⟩ |
    ⟨pre, e, post, t, happ, hev, het, hbt, hr, hpre, hpost⟩
  · exact absurd (hall e0 he0 hv0 t0 ht0) (by omega)
  · refine ⟨e, by rw [happ]; exact List.mem_append_right _ (List.mem_cons_self _ _),
      hev, t, het, ?_, by rw [findNewestFile, hr]⟩
    intro e' he' hve' t' hte'
    rw [happ] at he'
    rcases List.mem_append.mp he' with hmem | hmem
    · exact le_of_lt (hpre e' hmem hve' t' hte')
    · rcases List.mem_cons.mp hmem with rfl | hmem'
      · rw [het] at hte'
        injection hte' with hh
        omega
      · exact hpost e' hmem' hve' t' hte'

/-- C2 amended claim exercised at a concrete directory: a video entry of
modification time 9 next to a newer non-video entry; the video entry is
selected. -/
theorem findNewest_returns_max_video_witness :
    ∃ e ∈ [(⟨"clip.mp4", true, some 9⟩ : DirEntry), ⟨"notes.txt", false, some 99⟩],
      e.isVideo ∧ ∃ t : Int, e.modTime = some t ∧
      (∀ e' ∈ [(⟨"clip.mp4", true, some 9⟩ : DirEntry), ⟨"notes.txt", false, some 99⟩],
        e'.isVideo → ∀ t' : Int, e'.modTime = some t' → t' ≤ t) ∧
      findNewestFile "/w" [⟨"clip.mp4", true, some 9⟩, ⟨"notes.txt", false, some 99⟩] =
        joinGo "/w" e.name :=
  findNewest_returns_max_video "/w"
    [⟨"clip.mp4", true, some 9⟩, ⟨"notes.txt", false, some 99⟩]
    ⟨⟨"clip.mp4", true, some 9⟩, by decide, by decide, 9, rfl, by decide⟩

/-- C3 counterexample: two video-classified entries tie at the maximal
modification time 5. The claim says the last such entry in listing order
("b.mov") is returned, but the strict comparison `currTime > newestTime`
never replaces an earlier entry on a tie, so the first one ("a.mov") is
returned. -/
theorem findNewest_tie_returns_first_not_last :
    findNewestFile "/d" [⟨"a.mov", true, some 5⟩, ⟨"b.mov", true, some 5⟩] =
      joinGo "/d" "a.mov" ∧
    findNewestFile "/d" [⟨"a.mov", true, some 5⟩, ⟨"b.mov", true, some 5⟩] ≠
      joinGo "/d" "b.mov" := by
  refine ⟨rfl, by decide⟩

/-- C3 (amended): in every directory holding a video-classified,
stat-succeeding entry with modification time strictly after the Unix
epoch, ties among video-classified entries at the maximal modification
time are broken first-seen-wins: the selected entry attains the maximum
and every video-classified entry strictly before it in listing order has
a strictly smaller modification time. (A tie at an epoch-or-earlier
timestamp is never selected at all — the C2 counterexample's behaviour —
hence the epoch qualifier here as well.) -/
theorem findNewest_tie_first_seen_wins (dir : String) (files : List DirEntry)
    (h : ∃ e ∈ files, e.isVideo ∧ ∃ t : Int, e.modTime = some t ∧ 0 < t) :
    ∃ pre e post, files = pre ++ e :: post ∧ e.isVideo ∧
      (∃ t : Int, e.modTime = some t ∧
        (∀ e' ∈ files, e'.isVideo → ∀ t' : Int, e'.modTime = some t' → t' ≤ t) ∧
        (∀ e' ∈ pre, e'.isVideo → ∀ t' : Int, e'.modTime = some t' → t' < t)) ∧
      findNewestFile dir files = joinGo dir e.name := by
  obtain ⟨e0, he0, hv0, t0, ht0, hpos0⟩ := h
  rcases findNewestLoop_spec files "" 0 with ⟨_, hall⟩ |
    ⟨pre, e, post, t, happ, hev, het, hbt, hr, hpre, hpost⟩
  · exact absurd (hall e0 he0 hv0 t0 ht0) (by omega)
  · refine ⟨pre, e, post, happ, hev, ⟨t, het, ?_, hpre⟩, by rw [findNewestFile, hr]⟩
    intro e' he' hve' t' hte'
    rw [happ] at he'
    rcases List.mem_append.mp he' with hmem | hmem
    · exact le_of_lt (hpre e' hmem hve' t' hte')
    · rcases List.mem_cons.mp hmem with rfl | hmem'
      · rw [het] at hte'
        injection hte' with hh
        omega
      · exact hpost e' hmem' hve' t' hte'

/-- C3 amended claim exercised on a concrete tie: two video entries both
at modification time 5; the first is selected with an empty prefix. -/
theorem findNewest_tie_first_seen_wins_witness :
    ∃ pre e post,
      [(⟨"a.mov", true, some 5⟩ : DirEntry), ⟨"b.mov", true, some 5⟩] = pre ++ e :: post ∧
      e.isVideo ∧
      (∃ t : Int, e.modTime = some t ∧
        (∀ e' ∈ [(⟨"a.mov", true, some 5⟩ : DirEntry), ⟨"b.mov", true, some 5⟩],
          e'.isVideo → ∀ t' : Int, e'.modTime = some t' → t' ≤ t) ∧
        (∀ e' ∈ pre, e'.isVideo → ∀ t' : Int, e'.modTime = some t' → t' < t)) ∧
      findNewestFile "/d" [⟨"a.mov", true, some 5⟩, ⟨"b.mov", true, some 5⟩] =
        joinGo "/d" e.name :=
  findNewest_tie_first_seen_wins "/d"
    [⟨"a.mov", true, some 5⟩, ⟨"b.mov", true, some 5⟩]
    ⟨⟨"a.mov", true, some 5⟩, by decide, by decide, 5, rfl, by decide⟩

/-- C10: the scan never selects an entry whose modification time is at or
before the Unix epoch, because the running maximum starts at 0 and the
comparison is strict; hence a listing whose video-classified entries all
have epoch-or-earlier times yields the same result as the same listing
with its video-classified entries removed (in particular, the same as a
directory with no video-classified entries at all). -/
theorem findNewest_epoch_entries_ignored (dir : String) (files : List DirEntry)
    (h : ∀ e ∈ files, e.isVideo → ∀ t : Int, e.modTime = some t → t ≤ 0) :
    findNewestFile dir files =
      findNewestFile dir (files.filter fun e => !e.isVideo) := by
  have hleft : findNewestLoop files "" 0 = "" := by
    rcases findNewestLoop_spec files "" 0 with ⟨hr, _⟩ |
      ⟨pre, e, post, t, happ, hev, het, hbt, hr, _, _⟩
    · exact hr
    · have hmem : e ∈ files := by
        rw [happ]; exact List.mem_append_right _ (List.mem_cons_self _ _)
      exact absurd (h e hmem hev t het) (by omega)
  have hright : findNewestLoop (files.filter fun e => !e.isVideo) "" 0 = "" := by
    rcases findNewestLoop_spec (files.filter fun e => !e.isVideo) "" 0 with ⟨hr, _⟩ |
      ⟨pre, e, post, t, happ, hev, het, hbt, hr, _, _⟩
    · exact hr
    · have hmem : e ∈ files.filter fun e => !e.isVideo := by
        rw [happ]; exact List.mem_append_right _ (List.mem_cons_self _ _)
      have := List.of_mem_filter hmem
      simp [hev] at this
  rw [findNewestFile, findNewestFile, hleft, hright]

/-- C10 exercised concretely: the only video entries sit at or before the
epoch (times 0 and -7); the scan result coincides with the scan of the
listing restricted to non-video entries. -/
theorem findNewest_epoch_entries_ignored_witness :
    findNewestFile "/x"
        [⟨"epoch.mp4", true, some 0⟩, ⟨"old.mov", true, some (-7)⟩,
          ⟨"notes.txt", false, some 99⟩] =
      findNewestFile "/x"
        ([(⟨"epoch.mp4", true, some 0⟩ : DirEntry), ⟨"old.mov", true, some (-7)⟩,
          ⟨"notes.txt", false, some 99⟩].filter fun e => !e.isVideo) :=
  findNewest_epoch_entries_ignored "/x"
    [⟨"epoch.mp4", true, some 0⟩, ⟨"old.mov", true, some (-7)⟩,
      ⟨"notes.txt", false, some 99⟩]
    (by
      intro e he hv t ht
      simp only [List.mem_cons, List.not_mem_nil, or_false] at he
      rcases he with rfl | rfl | rfl
      · simp only [Option.some.injEq] at ht
        omega
      · simp only [Option.some.injEq] at ht
        omega
      · simp at hv)

/-- The configuration fields consumed by the pipeline (resolved by the
CLI/JSON layer before `process` runs). -/
structure Config where
  src : String
  dist : String
  bucket : String
  width : Int
  frames : Int
  quality : Int
deriving DecidableEq, Repr

/-- A log line, as emitted through the shared logger. -/
inductive LogEntry where
  | debug (msg : String)
  | error (msg : String)
deriving DecidableEq, Repr

/-- The observable external world threaded through the pipeline: the set
of existing directories, the spawned external commands (name and argument
vector, in spawn order), the lines printed to standard output, the system
clipboard contents, and the log. -/
structure World where
  dirs : List String
  cmds : List (String × List String)
  stdout : List String
  clipboard : String
  log : List LogEntry
deriving DecidableEq, Repr

/-- Outcome of one external command (`cmd.CombinedOutput()`): the
combined output bytes and the error, if any. The program only logs these,
so they are inputs to the model. -/
structure CmdResult where
  output : String
  err : Option String
deriving DecidableEq, Repr

/-- `printOutput` (main.go lines 34-38): log the combined output at debug
level when non-empty. -/
def printOutput (outs : String) (w : World) : World :=
  if outs.length > 0 then { w with log := w.log ++ [LogEntry.debug outs] } else w

/-- `printError` (main.go lines 28-32): log the error message when an
error occurred. -/
def printError : Option String → World → World
  | none, w => w
  | some e, w => { w with log := w.log ++ [LogEntry.error e] }

/-- `runCmd` (main.go lines 64-70): spawn the command, log its argument
vector at debug level, then log its combined output and error. The
outcome never aborts the caller. -/
def runCmd (res : CmdResult) (name : String) (args : List String) (w : World) : World :=
  let w1 := { w with cmds := w.cmds ++ [(name, args)],
                     log := w.log ++ [LogEntry.debug (String.intercalate " " (name :: args))] }
  printError res.err (printOutput res.output w1)

/-- The shell line `createGif` builds for gifski (main.go lines 90-97). -/
def gifskiCmdLine (c : Config) (outfn infn : String) : String :=
  "gifski -W " ++ toString c.width ++ " -r " ++ toString c.frames ++
    " -Q " ++ toString c.quality ++ " -o " ++ outfn ++ " " ++ infn

/-- `createGif` (main.go lines 87-100): run gifski through `/bin/sh -c`
over the frame glob in the scratch directory. -/
def createGif (c : Config) (res : CmdResult) (tmpDir outfn : String) (w : World) : World :=
  runCmd res "/bin/sh" ["-c", gifskiCmdLine c outfn (joinGo tmpDir "*.png")] w

/-- `uploadGCP` (main.go lines 103-116): no-op on an empty bucket;
otherwise copy the artifact with `gsutil cp`, derive the fixed public
URL, print it and write it to the clipboard. -/
def uploadGCP (res : CmdResult) (bucket outfn outputFile : String) (w : World) : World :=
  if bucket = "" then w
  else
    let w1 := runCmd res "gsutil" ["cp", outfn, "gs://" ++ bucket] w
    let url := "https://storage.googleapis.com/" ++ bucket ++ "/" ++ outputFile
    { w1 with stdout := w1.stdout ++ [url], clipboard := url }

/-- `uploadS3` (upload-variant source, lines 93-106): no-op on an empty
bucket; otherwise copy the artifact with `aws s3 cp --acl public-read`,
derive the fixed public URL, print it and write it to the clipboard. -/
def uploadS3 (res : CmdResult) (bucket videoFile bucketFile : String) (w : World) : World :=
  if bucket = "" then w
  else
    let w1 := runCmd res "aws"
      ["s3", "cp", videoFile, "s3://" ++ bucket ++ "/" ++ bucketFile,
        "--acl", "public-read"] w
    let url := "https://" ++ bucket ++ ".s3.amazonaws.com/" ++ bucketFile
    { w1 with stdout := w1.stdout ++ [url], clipboard := url }

/-- The artifact file name `fmt.Sprintf("%d.gif", newName)` for
`newName := time.Now().Unix()` (main.go lines 144-145). -/
def outputFileName (now : Int) : String := toString now ++ ".gif"

/-- The artifact path (main.go lines 146-150): join the destination
directory — falling back to the source directory when `dist` is empty —
with the timestamp file name. -/
def outputPath (c : Config) (now : Int) : String :=
  joinGo (if c.dist = "" then c.src else c.dist) (outputFileName now)

/-- `process` (main.go lines 124-154, with the video path already
resolved as in the watch-variant's `process(c, videoFile)`): fatal exit
(`none`) on an empty path or a failed scratch-directory creation;
otherwise create the scratch directory, run ffmpeg frame extraction, run
gifski encoding, dispatch the upload, and remove the scratch directory on
return (`defer os.RemoveAll(tmpDir)`). `tmpDirRes` is the outcome of
`ioutil.TempDir`, `now` the wall-clock unix timestamp, and the three
`CmdResult`s the outcomes of the external commands. -/
def process (c : Config) (videoFile : String) (tmpDirRes : Option String)
    (ffmpegRes gifskiRes gsutilRes : CmdResult) (now : Int) (w : World) : Option World :=
  if videoFile = "" then none
  else
    match tmpDirRes with
    | none => none
    | some tmpDir =>
      let w1 := { w with dirs := w.dirs ++ [tmpDir] }
      let w2 := runCmd ffmpegRes "ffmpeg" ["-i", videoFile, joinGo tmpDir "frame%04d.png"] w1
      let w3 := createGif c gifskiRes tmpDir (outputPath c now) w2
      let w4 := uploadGCP gsutilRes c.bucket (outputPath c now) (outputFileName now) w3
      some { w4 with dirs := w4.dirs.filter (fun d => d != tmpDir) }

/-- The fsnotify operation bitmask values (`fsnotify.Op`):
`Create = 1 << 0`. -/
def fsnotifyCreate : Nat := 1

/-- `fsnotify.Write = 1 << 1`. -/
def fsnotifyWrite : Nat := 2

/-- `fsnotify.Remove = 1 << 2`. -/
def fsnotifyRemove : Nat := 4

/-- `fsnotify.Rename = 1 << 3`. -/
def fsnotifyRename : Nat := 8

/-- `fsnotify.Chmod = 1 << 4`. -/
def fsnotifyChmod : Nat := 16

/-- One filesystem event delivered to the watcher: the affected path and
the operation bitmask. -/
structure FsEvent where
  name : String
  op : Nat
deriving DecidableEq, Repr

/-- The body of the watcher's event case (watch source, lines 133-141):
dispatch `process` on the event's path exactly when
`event.Op & fsnotify.Create == fsnotify.Create`; otherwise only log. The
returned list holds the paths passed to `process` by this one event. -/
def handleEvent (e : FsEvent) : List String :=
  if e.op &&& fsnotifyCreate = fsnotifyCreate then [e.name] else []

/-- The watcher's event-consumption loop over a delivered event sequence,
in order, each event handled synchronously: the concatenation of the
dispatched paths. -/
def watchDispatch : List FsEvent → List String
  | [] => []
  | e :: rest => handleEvent e ++ watchDispatch rest

/-- Projection lemmas: logging combined output touches only the log. -/
theorem printOutput_cmds (o : String) (w : World) : (printOutput o w).cmds = w.cmds := by
  unfold printOutput
  split <;> rfl

theorem printOutput_dirs (o : String) (w : World) : (printOutput o w).dirs = w.dirs := by
  unfold printOutput
  split <;> rfl

theorem printOutput_stdout (o : String) (w : World) : (printOutput o w).stdout = w.stdout := by
  unfold printOutput
  split <;> rfl

theorem printOutput_clipboard (o : String) (w : World) :
    (printOutput o w).clipboard = w.clipboard := by
  unfold printOutput
  split <;> rfl

/-- Projection lemmas: logging an error touches only the log. -/
theorem printError_cmds (e : Option String) (w : World) : (printError e w).cmds = w.cmds := by
  cases e <;> rfl

theorem printError_dirs (e : Option String) (w : World) : (printError e w).dirs = w.dirs := by
  cases e <;> rfl

theorem printError_stdout (e : Option String) (w : World) :
    (printError e w).stdout = w.stdout := by
  cases e <;> rfl

theorem printError_clipboard (e : Option String) (w : World) :
    (printError e w).clipboard = w.clipboard := by
  cases e <;> rfl

/-- `runCmd` appends exactly one spawned command, whatever its outcome. -/
theorem runCmd_cmds (res : CmdResult) (n : String) (a : List String) (w : World) :
    (runCmd res n a w).cmds = w.cmds ++ [(n, a)] := by
  unfold runCmd
  rw [printError_cmds, printOutput_cmds]

theorem runCmd_dirs (res : CmdResult) (n : String) (a : List String) (w : World) :
    (runCmd res n a w).dirs = w.dirs := by
  unfold runCmd
  rw [printError_dirs, printOutput_dirs]

theorem runCmd_stdout (res : CmdResult) (n : String) (a : List String) (w : World) :
    (runCmd res n a w).stdout = w.stdout := by
  unfold runCmd
  rw [printError_stdout, printOutput_stdout]

theorem runCmd_clipboard (res : CmdResult) (n : String) (a : List String) (w : World) :
    (runCmd res n a w).clipboard = w.clipboard := by
  unfold runCmd
  rw [printError_clipboard, printOutput_clipboard]

/-- The commands spawned by `uploadGCP`: none on an empty bucket, one
`gsutil cp` otherwise. -/
theorem uploadGCP_cmds (res : CmdResult) (b o f : String) (w : World) :
    (uploadGCP res b o f w).cmds =
      w.cmds ++ (if b = "" then [] else [("gsutil", ["cp", o, "gs://" ++ b])]) := by
  unfold uploadGCP
  split
  · rw [List.append_nil]
  · exact runCmd_cmds res "gsutil" _ w

theorem uploadGCP_dirs (res : CmdResult) (b o f : String) (w : World) :
    (uploadGCP res b o f w).dirs = w.dirs := by
  unfold uploadGCP
  split
  · rfl
  · exact runCmd_dirs res "gsutil" _ w

/-- The full spawned-command trace of a normally returning `process`
invocation: frame extraction, then encoding, then — when a bucket is
configured — the upload copy, whatever each subprocess outcome was. -/
theorem process_cmds_eq (c : Config) (videoFile tmpDir : String)
    (fr gr ur : CmdResult) (now : Int) (w w' : World)
    (h : process c videoFile (some tmpDir) fr gr ur now w = some w') :
    w'.cmds = w.cmds
      ++ [("ffmpeg", ["-i", videoFile, joinGo tmpDir "frame%04d.png"]),
          ("/bin/sh", ["-c", gifskiCmdLine c (outputPath c now) (joinGo tmpDir "*.png")])]
      ++ (if c.bucket = "" then []
          else [("gsutil", ["cp", outputPath c now, "gs://" ++ c.bucket])]) := by
  unfold process at h
  split at h
  · cases h
  · injection h with h'
    subst h'
    show (uploadGCP ur c.bucket _ _ (createGif c gr tmpDir _ (runCmd fr "ffmpeg" _ _))).cmds = _
    rw [uploadGCP_cmds, createGif, runCmd_cmds, runCmd_cmds]
    simp

/-- Concrete fixtures used to exercise the pipeline theorems. -/
def cfgSample : Config := ⟨"/videos", "/gifs", "mybucket", 960, 20, 100⟩

def resOk : CmdResult := ⟨"", none⟩

def resFail : CmdResult := ⟨"boom", some "exit status 1"⟩

def worldSample : World := ⟨["/videos"], [], [], "initial", []⟩

/-- C4: the pipeline's artifact path joins the destination directory —
falling back to the source directory when `dist` is empty — with the
whole-second unix-timestamp `.gif` file name, and the encoding step is
invoked on exactly that path. -/
theorem output_artifact_path (c : Config) (videoFile tmpDir : String)
    (fr gr ur : CmdResult) (now : Int) (w w' : World)
    (h : process c videoFile (some tmpDir) fr gr ur now w = some w') :
    ("/bin/sh", ["-c", gifskiCmdLine c (outputPath c now) (joinGo tmpDir "*.png")]) ∈ w'.cmds ∧
    (c.dist ≠ "" → outputPath c now = joinGo c.dist (outputFileName now)) ∧
    (c.dist = "" → outputPath c now = joinGo c.src (outputFileName now)) ∧
    outputFileName now = toString now ++ ".gif" := by
  refine ⟨?_, ?_, ?_, rfl⟩
  · rw [process_cmds_eq c videoFile tmpDir fr gr ur now w w' h]
    simp
  · intro hd
    rw [outputPath, if_neg hd]
  · intro hd
    rw [outputPath, if_pos hd]

/-- C4 exercised concretely: with `dist = "/gifs"` set, the gifski step
of a normally returning invocation targets `/gifs/1700000000.gif`. -/
theorem output_artifact_path_witness :
    ("/bin/sh", ["-c", gifskiCmdLine cfgSample (outputPath cfgSample 1700000000)
        (joinGo "/tmp/pngs2" "*.png")]) ∈
      (Option.getD
        (process cfgSample "in.mov" (some "/tmp/pngs2") resOk resOk resOk 1700000000
          worldSample) worldSample).cmds ∧
    (cfgSample.dist ≠ "" →
      outputPath cfgSample 1700000000 = joinGo cfgSample.dist (outputFileName 1700000000)) ∧
    (cfgSample.dist = "" →
      outputPath cfgSample 1700000000 = joinGo cfgSample.src (outputFileName 1700000000)) ∧
    outputFileName 1700000000 = toString (1700000000 : Int) ++ ".gif" :=
  output_artifact_path cfgSample "in.mov" "/tmp/pngs2" resOk resOk resOk 1700000000
    worldSample _ rfl

/-- C5: after every normally returning `process` invocation the scratch
directory created at its start no longer exists, whatever the outcomes of
frame extraction, encoding and upload (`defer os.RemoveAll(tmpDir)`). -/
theorem scratch_dir_removed (c : Config) (videoFile tmpDir : String)
    (fr gr ur : CmdResult) (now : Int) (w w' : World)
    (h : process c videoFile (some tmpDir) fr gr ur now w = some w') :
    tmpDir ∉ w'.dirs := by
  unfold process at h
  split at h
  · cases h
  · injection h with h'
    subst h'
    intro hmem
    have := List.of_mem_filter hmem
    simp at this

/-- C5 exercised concretely: a run whose ffmpeg step failed still leaves
no `/tmp/pngs1` behind. -/
theorem scratch_dir_removed_witness :
    "/tmp/pngs1" ∉
      (Option.getD
        (process cfgSample "in.mov" (some "/tmp/pngs1") resFail resOk resOk 1700000000
          worldSample) worldSample).dirs :=
  scratch_dir_removed cfgSample "in.mov" "/tmp/pngs1" resFail resOk resOk 1700000000
    worldSample _ rfl

/-- C6: the watcher dispatches the pipeline exactly once, on the event's
path, for every event whose operation mask includes the creation bit, and
never for an event without it; the pure modify/remove/rename/chmod masks
do not include the creation bit. -/
theorem watch_create_only_dispatch :
    (∀ e : FsEvent, e.op &&& fsnotifyCreate = fsnotifyCreate → handleEvent e = [e.name]) ∧
    (∀ e : FsEvent, ¬ e.op &&& fsnotifyCreate = fsnotifyCreate → handleEvent e = []) ∧
    (∀ op, op = fsnotifyWrite ∨ op = fsnotifyRemove ∨ op = fsnotifyRename ∨ op = fsnotifyChmod →
      ¬ op &&& fsnotifyCreate = fsnotifyCreate) ∧
    (∀ events : List FsEvent, watchDispatch events =
      (events.filter fun e => e.op &&& fsnotifyCreate == fsnotifyCreate).map
        (fun e => e.name)) := by
  refine ⟨?_, ?_, ?_, ?_⟩
  · intro e hc
    rw [handleEvent, if_pos hc]
  · intro e hc
    rw [handleEvent, if_neg hc]
  · intro op hop
    rcases hop with rfl | rfl | rfl | rfl <;> decide
  · intro events
    induction events with
    | nil => rfl
    | cons e rest ih =>
      by_cases hc : e.op &&& fsnotifyCreate = fsnotifyCreate
      · rw [watchDispatch, handleEvent, if_pos hc, List.filter_cons_of_pos (by simpa using hc),
          List.map_cons, ih]
        rfl
      · rw [watchDispatch, handleEvent, if_neg hc, List.filter_cons_of_neg (by simpa using hc),
          ih]
        rfl

/-- C6 exercised concretely: a creation event (mask 1) dispatches its
path once; a pure write event (mask 2) dispatches nothing. -/
theorem watch_create_only_dispatch_witness :
    handleEvent ⟨"/videos/new.mov", 1⟩ = ["/videos/new.mov"] ∧
    handleEvent ⟨"/videos/edited.mov", 2⟩ = [] :=
  ⟨watch_create_only_dispatch.1 ⟨"/videos/new.mov", 1⟩ (by decide),
   watch_create_only_dispatch.2.1 ⟨"/videos/edited.mov", 2⟩ (by decide)⟩

/-- C7: with a non-empty bucket, each uploader spawns its vendor copy
command and then prints to standard output, and writes to the clipboard,
exactly the store's fixed public-URL template —
`https://storage.googleapis.com/<bucket>/<objectKey>` for GCS and
`https://<bucket>.s3.amazonaws.com/<objectKey>` for S3. -/
theorem upload_public_url (bucket outfn objectKey : String) (res : CmdResult) (w : World)
    (h : bucket ≠ "") :
    ((uploadGCP res bucket outfn objectKey w).cmds =
        w.cmds ++ [("gsutil", ["cp", outfn, "gs://" ++ bucket])] ∧
      (uploadGCP res bucket outfn objectKey w).stdout =
        w.stdout ++ ["https://storage.googleapis.com/" ++ bucket ++ "/" ++ objectKey] ∧
      (uploadGCP res bucket outfn objectKey w).clipboard =
        "https://storage.googleapis.com/" ++ bucket ++ "/" ++ objectKey) ∧
    ((uploadS3 res bucket outfn objectKey w).cmds =
        w.cmds ++ [("aws", ["s3", "cp", outfn, "s3://" ++ bucket ++ "/" ++ objectKey,
          "--acl", "public-read"])] ∧
      (uploadS3 res bucket outfn objectKey w).stdout =
        w.stdout ++ ["https://" ++ bucket ++ ".s3.amazonaws.com/" ++ objectKey] ∧
      (uploadS3 res bucket outfn objectKey w).clipboard =
        "https://" ++ bucket ++ ".s3.amazonaws.com/" ++ objectKey) := by
  rw [uploadGCP, if_neg h, uploadS3, if_neg h]
  exact ⟨⟨runCmd_cmds res "gsutil" _ w, by simp [runCmd_stdout], rfl⟩,
    ⟨runCmd_cmds res "aws" _ w, by simp [runCmd_stdout], rfl⟩⟩

/-- C7 exercised concretely with bucket `mybucket` and object key
`1700000000.gif`. -/
theorem upload_public_url_witness :
    ((uploadGCP resOk "mybucket" "/gifs/1700000000.gif" "1700000000.gif" worldSample).cmds =
        worldSample.cmds ++ [("gsutil", ["cp", "/gifs/1700000000.gif", "gs://" ++ "mybucket"])] ∧
      (uploadGCP resOk "mybucket" "/gifs/1700000000.gif" "1700000000.gif" worldSample).stdout =
        worldSample.stdout ++
          ["https://storage.googleapis.com/" ++ "mybucket" ++ "/" ++ "1700000000.gif"] ∧
      (uploadGCP resOk "mybucket" "/gifs/1700000000.gif" "1700000000.gif" worldSample).clipboard =
        "https://storage.googleapis.com/" ++ "mybucket" ++ "/" ++ "1700000000.gif") ∧
    ((uploadS3 resOk "mybucket" "/gifs/1700000000.gif" "1700000000.gif" worldSample).cmds =
        worldSample.cmds ++ [("aws", ["s3", "cp", "/gifs/1700000000.gif",
          "s3://" ++ "mybucket" ++ "/" ++ "1700000000.gif", "--acl", "public-read"])] ∧
      (uploadS3 resOk "mybucket" "/gifs/1700000000.gif" "1700000000.gif" worldSample).stdout =
        worldSample.stdout ++
          ["https://" ++ "mybucket" ++ ".s3.amazonaws.com/" ++ "1700000000.gif"] ∧
      (uploadS3 resOk "mybucket" "/gifs/1700000000.gif" "1700000000.gif" worldSample).clipboard =
        "https://" ++ "mybucket" ++ ".s3.amazonaws.com/" ++ "1700000000.gif") :=
  upload_public_url "mybucket" "/gifs/1700000000.gif" "1700000000.gif" resOk worldSample
    (by decide)

/-- C8: with an empty bucket identifier both uploaders return the world
unchanged — no command spawned, nothing printed, clipboard untouched. -/
theorem upload_empty_bucket_noop (outfn objectKey : String) (res : CmdResult) (w : World) :
    uploadGCP res "" outfn objectKey w = w ∧ uploadS3 res "" outfn objectKey w = w :=
  ⟨rfl, rfl⟩

/-- C9: a normally returning pipeline invocation spawns frame extraction,
then encoding, then — exactly when a bucket is configured — the upload
copy; in particular the ffmpeg outcome `fr`, error or not, never
suppresses the later steps. -/
theorem pipeline_no_abort (c : Config) (videoFile tmpDir : String)
    (fr gr ur : CmdResult) (now : Int) (w w' : World)
    (h : process c videoFile (some tmpDir) fr gr ur now w = some w') :
    w'.cmds = w.cmds
      ++ [("ffmpeg", ["-i", videoFile, joinGo tmpDir "frame%04d.png"]),
          ("/bin/sh", ["-c", gifskiCmdLine c (outputPath c now) (joinGo tmpDir "*.png")])]
      ++ (if c.bucket = "" then []
          else [("gsutil", ["cp", outputPath c now, "gs://" ++ c.bucket])]) :=
  process_cmds_eq c videoFile tmpDir fr gr ur now w w' h

/-- C9 exercised concretely: with a failing ffmpeg step the trace still
contains the gifski and gsutil invocations, in order. -/
theorem pipeline_no_abort_witness :
    (Option.getD
        (process cfgSample "in.mov" (some "/tmp/pngs3") resFail resOk resOk 1700000001
          worldSample) worldSample).cmds =
      worldSample.cmds
        ++ [("ffmpeg", ["-i", "in.mov", joinGo "/tmp/pngs3" "frame%04d.png"]),
            ("/bin/sh", ["-c", gifskiCmdLine cfgSample (outputPath cfgSample 1700000001)
              (joinGo "/tmp/pngs3" "*.png")])]
        ++ (if cfgSample.bucket = "" then []
            else [("gsutil", ["cp", outputPath cfgSample 1700000001,
              "gs://" ++ cfgSample.bucket])]) :=
  pipeline_no_abort cfgSample "in.mov" "/tmp/pngs3" resFail resOk resOk 1700000001
    worldSample _ rfl

end Ggif
